import Mathlib

/-!
# Shallow embedding of the perspective-correction core (`mod-pc.cpp`)

This file embeds the functions of `src/libs/lensfun/mod-pc.cpp` as Lean
definitions over `ℝ` and proves properties of them.

Conventions used throughout the embedding:

* C `float`/`double` arithmetic is idealised as exact real arithmetic.
* Division by zero follows Lean's convention `a / 0 = 0`.  Where the presence
  of an unguarded division is itself the point of a property, a `_checked`
  variant returning `Option` marks the division-by-zero branch explicitly.
* The C code uses `NAN` as an intentional sentinel value in
  `determine_rho_h`, tested by the callers with `isnan`; the sentinel is
  modelled by `Option ℝ` (`none` = NaN).
* C++ reference (in/out) parameters are modelled by passing the current value
  in and returning the (possibly unchanged) value as part of the result.
  In particular, the locals `center_of_control_points_x/y` of
  `enable_perspective_correction` are never written by `calculate_angles`
  (which never assigns its two final reference parameters), so their
  uninitialised values are modelled as explicit extra arguments `jx`, `jy`.
* Registration of the per-pixel callback (`AddCoordCallback`) is modelled by
  the orchestrator returning `some parameterBlock`; returning `false` without
  registering anything is modelled by `none`.
-/

namespace ModPC

open Matrix

/-- Index into a list of reals, 0 outside the range (only in-range accesses
occur on the paths exercised below). -/
noncomputable def idx (l : List ℝ) (i : ℕ) : ℝ := l.getD i 0

/-- A 3-vector, standing for the C++ `fvector` of length 3. -/
structure V3 where
  x : ℝ
  y : ℝ
  z : ℝ

/-- `normalize` from the source: divide a 2-vector by its Euclidean norm. -/
noncomputable def normalize (x y : ℝ) : ℝ × ℝ :=
  let norm := Real.sqrt (x ^ 2 + y ^ 2)
  (x / norm, y / norm)

/-- `central_projection` from the source: pinhole projection of a 3-vector
onto the plane at the given distance. -/
noncomputable def central_projection (coordinates : V3) (plane_distance : ℝ) : ℝ × ℝ :=
  let stretch_factor := plane_distance / coordinates.z
  (coordinates.x * stretch_factor, coordinates.y * stretch_factor)

/-- The denominator `C` of `intersection` in the source (zero for parallel
lines). -/
noncomputable def intersection_C (x0 x1 x2 x3 y0 y1 y2 y3 : ℝ) : ℝ :=
  (x0 - x1) * (y2 - y3) - (y0 - y1) * (x2 - x3)

/-- `intersection` from the source: crossing of the line through points 0,1
with the line through points 2,3 by Cramer's rule. -/
noncomputable def intersection (x0 x1 x2 x3 y0 y1 y2 y3 : ℝ) : ℝ × ℝ :=
  let A := x0 * y1 - y0 * x1
  let B := x2 * y3 - y2 * x3
  let C := intersection_C x0 x1 x2 x3 y0 y1 y2 y3
  ((A * (x2 - x3) - B * (x0 - x1)) / C, (A * (y2 - y3) - B * (y0 - y1)) / C)

/-- `rotate_rho_delta` from the source: apply the matrix `Rₓ(δ) · R_y(ρ)`. -/
noncomputable def rotate_rho_delta (rho delta x y z : ℝ) : V3 :=
  let A11 := Real.cos rho
  let A12 := (0 : ℝ)
  let A13 := Real.sin rho
  let A21 := Real.sin rho * Real.sin delta
  let A22 := Real.cos delta
  let A23 := - Real.cos rho * Real.sin delta
  let A31 := - Real.sin rho * Real.cos delta
  let A32 := Real.sin delta
  let A33 := Real.cos rho * Real.cos delta
  ⟨A11 * x + A12 * y + A13 * z,
   A21 * x + A22 * y + A23 * z,
   A31 * x + A32 * y + A33 * z⟩

/-- `rotate_rho_delta_rho_h` from the source: apply `R_y(ρₕ) · Rₓ(δ) · R_y(ρ)`. -/
noncomputable def rotate_rho_delta_rho_h (rho delta rho_h x y z : ℝ) : V3 :=
  let A11 := Real.cos rho * Real.cos rho_h - Real.sin rho * Real.cos delta * Real.sin rho_h
  let A12 := Real.sin delta * Real.sin rho_h
  let A13 := Real.sin rho * Real.cos rho_h + Real.cos rho * Real.cos delta * Real.sin rho_h
  let A21 := Real.sin rho * Real.sin delta
  let A22 := Real.cos delta
  let A23 := - Real.cos rho * Real.sin delta
  let A31 := - Real.cos rho * Real.sin rho_h - Real.sin rho * Real.cos delta * Real.cos rho_h
  let A32 := Real.sin delta * Real.cos rho_h
  let A33 := - Real.sin rho * Real.sin rho_h + Real.cos rho * Real.cos delta * Real.cos rho_h
  ⟨A11 * x + A12 * y + A13 * z,
   A21 * x + A22 * y + A23 * z,
   A31 * x + A32 * y + A33 * z⟩

/-- `determine_rho_h` from the source.  The source computes both `p0` and
`p1` from `x [0], y [0]` (the literal text of lines 262-263), so both lets
below intentionally read the first point.  The C `NAN` sentinel is `none`.
The function receives the two endpoints `(x0, y0)` and `(x1, y1)` of the
segment (the source's two 2-element vectors). -/
noncomputable def determine_rho_h (rho delta x0 y0 x1 y1 f_normalized center_x center_y : ℝ) :
    Option ℝ :=
  let p0 := rotate_rho_delta rho delta x0 y0 f_normalized
  let p1 := rotate_rho_delta rho delta x0 y0 f_normalized
  if p0.y = p1.y then
    if p0.y = 0 then none else some 0
  else
    let pr := central_projection ⟨p1.x - p0.x, p1.z - p0.z, p1.y - p0.y⟩ (- p0.y)
    let x_h := p0.x + pr.1
    let z_h := p0.z + pr.2
    let rho_h :=
      if z_h = 0 then (if x_h > 0 then 0 else Real.pi)
      else Real.pi / 2 - Real.arctan (x_h / z_h)
    some (if (rotate_rho_delta_rho_h rho delta rho_h center_x center_y f_normalized).z < 0 then
            rho_h - Real.pi
          else rho_h)

/-- Truncation toward zero, as C's conversion/`fmod` uses. -/
noncomputable def ctrunc (t : ℝ) : ℤ := if 0 ≤ t then ⌊t⌋ else ⌈t⌉

/-- C's `fmod x y = x - y * trunc (x / y)` (for `y ≠ 0`). -/
noncomputable def cfmod (x y : ℝ) : ℝ := x - y * (ctrunc (x / y) : ℝ)

/-- C's `atan2 y x`. -/
noncomputable def catan2 (y x : ℝ) : ℝ :=
  if x > 0 then Real.arctan (y / x)
  else if x < 0 then
    (if y ≥ 0 then Real.arctan (y / x) + Real.pi else Real.arctan (y / x) - Real.pi)
  else
    (if y > 0 then Real.pi / 2 else if y < 0 then - (Real.pi / 2) else 0)

/-! ## The one-sided Jacobi SVD (`svd` in the source)

The mutable 2n×n matrix is modelled as a total function `ℕ → ℕ → ℝ` that is
zero outside the active rows/columns; `S2` likewise.  The outer `while` loop
is bounded by the source's own `max_cycles` budget and is modelled with that
amount of fuel. -/

/-- Loop state of `svd`: the working matrix, the squared column norms, the
un-converged-pair counter and the estimated column rank. -/
structure SvdState where
  M : ℕ → ℕ → ℝ
  S2 : ℕ → ℝ
  counter : ℤ
  ecr : ℕ

/-- Jacobi rotation of columns `j` and `k` by `(c0, s0)` (the source's inner
`for (i = 0; i < 2 * n; i++)` update, applied to every row). -/
noncomputable def rotCols (M : ℕ → ℕ → ℝ) (j k : ℕ) (c0 s0 : ℝ) : ℕ → ℕ → ℝ :=
  fun i col =>
    if col = j then M i j * c0 + M i k * s0
    else if col = k then - M i j * s0 + M i k * c0
    else M i col

/-- One pass of the source's pair loop body for the column pair `(j, k)`. -/
noncomputable def svd_pair (n : ℕ) (e2 threshold : ℝ) (st : SvdState) (j k : ℕ) : SvdState :=
  let p := ∑ i ∈ Finset.range n, st.M i j * st.M i k
  let q := ∑ i ∈ Finset.range n, (st.M i j) ^ 2
  let r := ∑ i ∈ Finset.range n, (st.M i k) ^ 2
  let S2 := fun t => if t = j then q else if t = k then r else st.S2 t
  if q ≥ r then
    if q ≤ e2 * S2 0 ∨ |p| ≤ threshold * q then
      { st with S2 := S2, counter := st.counter - 1 }
    else
      let p1 := p / q
      let r1 := 1 - r / q
      let vt := Real.sqrt (4 * p1 ^ 2 + r1 ^ 2)
      let c0 := Real.sqrt (0.5 * (1 + r1 / vt))
      let s0 := p1 / (vt * c0)
      { st with S2 := S2, M := rotCols st.M j k c0 s0 }
  else
    let p1 := p / r
    let q1 := q / r - 1
    let vt := Real.sqrt (4 * p1 ^ 2 + q1 ^ 2)
    let s0pre := Real.sqrt (0.5 * (1 - q1 / vt))
    let s0 := if p1 < 0 then - s0pre else s0pre
    let c0 := p1 / (vt * s0)
    { st with S2 := S2, M := rotCols st.M j k c0 s0 }

/-- The trailing rank-reduction `while` of each cycle, with fuel. -/
noncomputable def svd_shrink (S2 : ℕ → ℝ) (threshold : ℝ) : ℕ → ℕ → ℕ
  | 0, ecr => ecr
  | fuel + 1, ecr =>
    if 2 < ecr ∧ S2 (ecr - 1) ≤ S2 0 * threshold + threshold ^ 2 then
      svd_shrink S2 threshold fuel (ecr - 1)
    else ecr

/-- One cycle of the outer `while` loop: reset the counter, sweep all column
pairs `(j, k)` with `j < k < ecr` in order, then reduce the estimated rank. -/
noncomputable def svd_sweep (n : ℕ) (e2 threshold : ℝ) (st : SvdState) : SvdState :=
  let st1 : SvdState := { st with counter := ((st.ecr * (st.ecr - 1) / 2 : ℕ) : ℤ) }
  let pairs := (List.range st.ecr).flatMap
    (fun j => ((List.range st.ecr).filter (fun k => j < k)).map (fun k => (j, k)))
  let st2 := pairs.foldl (fun s jk => svd_pair n e2 threshold s jk.1 jk.2) st1
  { st2 with ecr := svd_shrink st2.S2 threshold st2.ecr st2.ecr }

/-- The outer `while (counter != 0 && iterations++ <= max_cycles)` loop, as a
fuel recursion (fuel = the iteration budget `max_cycles + 1`). -/
noncomputable def svd_loop (n : ℕ) (e2 threshold : ℝ) : ℕ → SvdState → SvdState
  | 0, st => st
  | fuel + 1, st =>
    if st.counter = 0 then st
    else svd_loop n e2 threshold fuel (svd_sweep n e2 threshold st)

/-- `svd` from the source: pad the input matrix with an identity block below,
run the one-sided Jacobi iteration, and return the accumulated right-singular
vector of the smallest singular value (last column of the lower block). -/
noncomputable def svd (Mrows : List (List ℝ)) : List ℝ :=
  let n := (Mrows.headI).length
  let M0 : ℕ → ℕ → ℝ := fun i j =>
    if i < Mrows.length then idx (Mrows.getD i []) j
    else if n ≤ i ∧ i < 2 * n ∧ j = i - n then 1 else 0
  let max_cycles := if n < 120 then 30 else n / 4
  let epsilon : ℝ := (2 ^ 23 : ℝ)⁻¹ * 10
  let e2 := 10 * n * epsilon ^ 2
  let threshold := 0.1 * epsilon
  let final := svd_loop n e2 threshold (max_cycles + 1)
    { M := M0, S2 := fun _ => 0, counter := (n : ℤ), ecr := n }
  (List.range n).map (fun i => final.M (n + i) (n - 1))

/-! ## Ellipse analysis -/

/-- The tilt-angle computation of `ellipse_analysis` (source lines 149-169):
initial value, the `a > c` shift, the axis swap, and the `fmod` reduction
into `(-π/2, π/2]`.  The source line `phi = 1/2 * atan (...)` performs the
integer division `1/2 = 0`, which the cast `((1 / 2 : ℤ) : ℝ)` reproduces. -/
noncomputable def ellipse_phi (a b c a_axis b_axis : ℝ) : ℝ :=
  let phi0 := ((1 / 2 : ℤ) : ℝ) * Real.arctan (2 * b / (a - c))
  let phi1 := if a > c then phi0 + Real.pi / 2 else phi0
  let phi2 := if a_axis < b_axis then phi1 - Real.pi / 2 else phi1
  cfmod (phi2 + Real.pi / 2) Real.pi - Real.pi / 2

/-- Modelled from the spec: the tilt-angle computation as §4.2 words it,
`φ₀ = ½·atan(2b/(a−c))` with a true one-half factor, followed by the same
shift, swap and reduction steps. -/
noncomputable def ellipse_phi_spec (a b c a_axis b_axis : ℝ) : ℝ :=
  let phi0 := (1 / 2 : ℝ) * Real.arctan (2 * b / (a - c))
  let phi1 := if a > c then phi0 + Real.pi / 2 else phi0
  let phi2 := if a_axis < b_axis then phi1 - Real.pi / 2 else phi1
  cfmod (phi2 + Real.pi / 2) Real.pi - Real.pi / 2

/-- Result of `ellipse_analysis`: vanishing point and ellipse center (the
latter overwrites the caller's center variables through the out-parameters). -/
structure EAResult where
  x_v : ℝ
  y_v : ℝ
  cx : ℝ
  cy : ℝ

/-- `ellipse_analysis` from the source: fit a conic through five points via
`svd`, extract center, axes and tilt, and recover the vanishing point. -/
noncomputable def ellipse_analysis (x y : List ℝ) (f_normalized : ℝ) : EAResult :=
  let M := (List.range 5).map
    (fun i => [(idx x i) ^ 2, idx x i * idx y i, (idx y i) ^ 2, idx x i, idx y i, 1])
  let parameters := svd M
  let a := idx parameters 0
  let b := idx parameters 1 / 2
  let c := idx parameters 2
  let d := idx parameters 3 / 2
  let f := idx parameters 4 / 2
  let g := idx parameters 5
  let Dd := b ^ 2 - a * c
  let x0 := (c * d - b * f) / Dd
  let y0 := (a * f - b * d) / Dd
  let Nn := 2 * (a * f ^ 2 + c * d ^ 2 + g * b ^ 2 - 2 * b * d * f - a * c * g) / Dd
  let Ss := Real.sqrt ((a - c) ^ 2 + 4 * b ^ 2)
  let Rr := a + c
  let a_axis := Real.sqrt (Nn / (Ss - Rr))
  let b_axis := Real.sqrt (Nn / (- Ss - Rr))
  let phi := ellipse_phi a b c a_axis b_axis
  let a2 := if a_axis < b_axis then b_axis else a_axis
  let b2 := if a_axis < b_axis then a_axis else b_axis
  let radius_vertex0 := - f_normalized / Real.sqrt ((a2 / b2) ^ 2 - 1)
  let radius_vertex :=
    if (idx x 0 - x0) * (idx y 1 - y0) < (idx x 1 - x0) * (idx y 0 - y0)
    then - radius_vertex0 else radius_vertex0
  ⟨radius_vertex * Real.sin phi, radius_vertex * Real.cos phi, x0, y0⟩

/-! ## The rotation-matrix builder (`generate_rotation_matrix`) -/

/-- The quaternion-to-matrix conversion of the source (lines 459-468). -/
noncomputable def quat_to_matrix (w x y z : ℝ) : Matrix (Fin 3) (Fin 3) ℝ :=
  Matrix.of
    ![![1 - 2 * y ^ 2 - 2 * z ^ 2, 2 * x * y - 2 * z * w, 2 * x * z + 2 * y * w],
      ![2 * x * y + 2 * z * w, 1 - 2 * x ^ 2 - 2 * z ^ 2, 2 * y * z - 2 * x * w],
      ![2 * x * z - 2 * y * w, 2 * y * z + 2 * x * w, 1 - 2 * x ^ 2 - 2 * y ^ 2]]

/-- The composed half-angle quaternion `(w, x, y, z)` of
`generate_rotation_matrix` (lines 426-435). -/
noncomputable def grm_quat0 (rho_1 delta rho_2 : ℝ) : ℝ × ℝ × ℝ × ℝ :=
  let s_rho_2 := Real.sin (rho_2 / 2)
  let c_rho_2 := Real.cos (rho_2 / 2)
  let s_delta := Real.sin (delta / 2)
  let c_delta := Real.cos (delta / 2)
  let s_rho_1 := Real.sin (rho_1 / 2)
  let c_rho_1 := Real.cos (rho_1 / 2)
  (c_rho_2 * c_delta * c_rho_1 - s_rho_2 * c_delta * s_rho_1,
   c_rho_2 * s_delta * c_rho_1 + s_rho_2 * s_delta * s_rho_1,
   c_rho_2 * c_delta * s_rho_1 + s_rho_2 * c_delta * c_rho_1,
   c_rho_2 * s_delta * s_rho_1 - s_rho_2 * s_delta * c_rho_1)

/-- The rotation angle `θ = 2·acos w`, wrapped into `(-π, π]` (lines 437-439). -/
noncomputable def grm_theta (rho_1 delta rho_2 : ℝ) : ℝ :=
  let theta := 2 * Real.arccos (grm_quat0 rho_1 delta rho_2).1
  if theta > Real.pi then theta - 2 * Real.pi else theta

/-- `sin (θ/2)`, the quantity the source divides the axis components by with
no guard (lines 440-443). -/
noncomputable def grm_s_theta (rho_1 delta rho_2 : ℝ) : ℝ :=
  Real.sin (grm_theta rho_1 delta rho_2 / 2)

/-- The strength scaling and clamping of `θ` (lines 444-449). -/
noncomputable def grm_strength (d theta : ℝ) : ℝ :=
  let compression : ℝ := 10
  let t := theta *
    (if d ≤ 0 then d + 1 else 1 + 1 / compression * Real.log (compression * d + 1))
  if t > 0.9 * Real.pi then 0.9 * Real.pi
  else if t < - (0.9 * Real.pi) then - (0.9 * Real.pi)
  else t

/-- The recomposed quaternion of `generate_rotation_matrix` (lines 441-455):
axis components divided by `sin (θ/2)`, then rescaled by `sin (θ'/2)` of the
strength-scaled angle. -/
noncomputable def grm_quat (rho_1 delta rho_2 d : ℝ) : ℝ × ℝ × ℝ × ℝ :=
  let q := grm_quat0 rho_1 delta rho_2
  let st := grm_s_theta rho_1 delta rho_2
  let x := q.2.1 / st
  let y := q.2.2.1 / st
  let z := q.2.2.2 / st
  let theta := grm_strength d (grm_theta rho_1 delta rho_2)
  (Real.cos (theta / 2), x * Real.sin (theta / 2), y * Real.sin (theta / 2),
   z * Real.sin (theta / 2))

/-- `generate_rotation_matrix` from the source, with Lean's total-division
convention at the unguarded `x /= sin (θ/2)` (see
`generate_rotation_matrix_checked` for the variant that flags that division). -/
noncomputable def generate_rotation_matrix (rho_1 delta rho_2 d : ℝ) :
    Matrix (Fin 3) (Fin 3) ℝ :=
  let q := grm_quat rho_1 delta rho_2 d
  quat_to_matrix q.1 q.2.1 q.2.2.1 q.2.2.2

/-- Variant of `generate_rotation_matrix` that makes the source's unguarded
division by `sin (θ/2)` explicit: `none` exactly when that divisor is zero
(in C, the axis components become `0.0f / 0.0f = NaN` there and the returned
matrix is all-NaN). -/
noncomputable def generate_rotation_matrix_checked (rho_1 delta rho_2 d : ℝ) :
    Option (Matrix (Fin 3) (Fin 3) ℝ) :=
  if grm_s_theta rho_1 delta rho_2 = 0 then none
  else some (generate_rotation_matrix rho_1 delta rho_2 d)

/-! ## The angle solver (`calculate_angles`) -/

/-- Result record of `calculate_angles`.  The fields `ccx`/`ccy` model the
reference out-parameters `center_of_control_points_x/y`, which the source
never assigns — they pass the caller's values through unchanged. -/
structure CAResult where
  rho : ℝ
  delta : ℝ
  rho_h : ℝ
  alpha : ℝ
  ccx : ℝ
  ccy : ℝ

/-- The local control-point center of `calculate_angles` (lines 291-301):
mean of the first four points when N = 6, otherwise mean of all points. -/
noncomputable def ca_center (x y : List ℝ) : ℝ × ℝ :=
  if x.length = 6 then ((x.take 4).sum / 4, (y.take 4).sum / 4)
  else (x.sum / (x.length : ℝ), y.sum / (y.length : ℝ))

/-- Vanishing point, possibly refined focal length and possibly overwritten
center (lines 303-325).  For N ∈ {5, 7} the ellipse analysis overwrites the
center; for N = 8 a second intersection may refine `f_normalized`. -/
structure VPResult where
  x_v : ℝ
  y_v : ℝ
  f : ℝ
  cx : ℝ
  cy : ℝ

noncomputable def ca_vanishing (x y : List ℝ) (f_normalized cx cy : ℝ) : VPResult :=
  let N := x.length
  if N = 5 ∨ N = 7 then
    let e := ellipse_analysis (x.take 5) (y.take 5) f_normalized
    ⟨e.x_v, e.y_v, f_normalized, e.cx, e.cy⟩
  else
    let v := intersection (idx x 0) (idx x 1) (idx x 2) (idx x 3)
                          (idx y 0) (idx y 1) (idx y 2) (idx y 3)
    if N = 8 then
      let h := intersection (idx x 4) (idx x 5) (idx x 6) (idx x 7)
                            (idx y 4) (idx y 5) (idx y 6) (idx y 7)
      let radicand := - h.1 * v.1 - h.2 * v.2
      if radicand ≥ 0 then ⟨v.1, v.2, Real.sqrt radicand, cx, cy⟩
      else ⟨v.1, v.2, f_normalized, cx, cy⟩
    else ⟨v.1, v.2, f_normalized, cx, cy⟩

/-- `ρ` and `δ` from the vanishing point (lines 327-331), including the
nadir correction `δ -= π` when the rotated center lands behind the camera. -/
noncomputable def ca_rho_delta (x_v y_v f cx cy : ℝ) : ℝ × ℝ :=
  let rho := Real.arctan (- x_v / f)
  let delta0 := Real.pi / 2 - Real.arctan (- y_v / Real.sqrt (x_v ^ 2 + f ^ 2))
  (rho,
   if (rotate_rho_delta rho delta0 cx cy f).z < 0 then delta0 - Real.pi else delta0)

/-- The direction vector `c` of the `switch` at lines 335-358. -/
noncomputable def ca_c (x y : List ℝ) (x_v y_v cx cy : ℝ) : ℝ × ℝ :=
  let N := x.length
  if N = 4 ∨ N = 6 ∨ N = 8 then
    let a := normalize (x_v - idx x 0) (y_v - idx y 0)
    let b := normalize (x_v - idx x 2) (y_v - idx y 2)
    (a.1 + b.1, a.2 + b.2)
  else if N = 5 then (x_v - cx, y_v - cy)
  else (idx x 5 - idx x 6, idx y 5 - idx y 6)

/-- `α` and the `swapped_verticals_and_horizontals` flag (lines 333, 359-379). -/
noncomputable def ca_alpha_swapped (x y : List ℝ) (rho delta f : ℝ) (c : ℝ × ℝ) :
    ℝ × Bool :=
  if x.length = 7 then
    let p5 := central_projection (rotate_rho_delta rho delta (idx x 5) (idx y 5) f) f
    let p6 := central_projection (rotate_rho_delta rho delta (idx x 6) (idx y 6) f) f
    let alpha0 := - catan2 (p6.2 - p5.2) (p6.1 - p5.1)
    (if |c.1| > |c.2| then - cfmod (alpha0 - Real.pi / 2) Real.pi - Real.pi / 2
     else - cfmod alpha0 Real.pi - Real.pi / 2, false)
  else if |c.1| > |c.2| then
    (if rho > 0 then Real.pi / 2 else - (Real.pi / 2), true)
  else (0, false)

/-- `ρₕ` (lines 381-416).  The `isnan` checks on the `NAN` sentinel become
`Option` handling; in the N = 8 double-degenerate corner, where the source
lets the NaN escape unchecked, the real-valued embedding takes 0. -/
noncomputable def ca_rho_h (x y : List ℝ) (rho delta f cx cy : ℝ) (swapped : Bool) : ℝ :=
  let N := x.length
  if N = 4 then
    (if swapped then determine_rho_h rho delta cx (cy - 1) cx (cy + 1) f cx cy
     else determine_rho_h rho delta (cx - 1) cy (cx + 1) cy f cx cy).getD 0
  else if N = 5 ∨ N = 7 then 0
  else
    match determine_rho_h rho delta (idx x 4) (idx y 4) (idx x 5) (idx y 5) f cx cy with
    | some r => r
    | none =>
      if N = 8 then
        (determine_rho_h rho delta (idx x 6) (idx y 6) (idx x 7) (idx y 7) f cx cy).getD 0
      else 0

/-- `calculate_angles` from the source.  `ccx0`/`ccy0` are the caller's
current values of the two reference out-parameters; the body never assigns
them, so they are returned unchanged. -/
noncomputable def calculate_angles (x y : List ℝ) (f_normalized ccx0 ccy0 : ℝ) : CAResult :=
  let ctr := ca_center x y
  let v := ca_vanishing x y f_normalized ctr.1 ctr.2
  let rd := ca_rho_delta v.x_v v.y_v v.f v.cx v.cy
  let c := ca_c x y v.x_v v.y_v v.cx v.cy
  let as := ca_alpha_swapped x y rd.1 rd.2 v.f c
  let rho_h := ca_rho_h x y rd.1 rd.2 v.f v.cx v.cy as.2
  ⟨rd.1, rd.2, rho_h, as.1, ccx0, ccy0⟩

/-! ## The orchestrator (`enable_perspective_correction`) and the callback -/

/-- The sequential clamping of `d` into `[-1, 1]` (lines 477-480). -/
noncomputable def clampd (d : ℝ) : ℝ :=
  if d < -1 then -1 else if d > 1 then 1 else d

/-- The in-place normalisation `xᵢ ← xᵢ·NormScale − Center` (lines 481-485). -/
noncomputable def normalize_points (l : List ℝ) (scale offset : ℝ) : List ℝ :=
  l.map (fun v => v * scale - offset)

/-- The in-plane-roll folding of lines 536-544.  The source overwrites
`A [i][0]` first and then computes `A [i][1]` from the *already updated*
`A [i][0]`; the nested expression in column 1 reproduces that sequential
overwrite (it is **not** the pure product `A·R_z(α)`). -/
noncomputable def fold_alpha (A : Matrix (Fin 3) (Fin 3) ℝ) (alpha : ℝ) :
    Matrix (Fin 3) (Fin 3) ℝ :=
  Matrix.of
    ![![Real.cos alpha * A 0 0 + Real.sin alpha * A 0 1,
        - Real.sin alpha * (Real.cos alpha * A 0 0 + Real.sin alpha * A 0 1) +
          Real.cos alpha * A 0 1,
        A 0 2],
      ![Real.cos alpha * A 1 0 + Real.sin alpha * A 1 1,
        - Real.sin alpha * (Real.cos alpha * A 1 0 + Real.sin alpha * A 1 1) +
          Real.cos alpha * A 1 1,
        A 1 2],
      ![Real.cos alpha * A 2 0 + Real.sin alpha * A 2 1,
        - Real.sin alpha * (Real.cos alpha * A 2 0 + Real.sin alpha * A 2 1) +
          Real.cos alpha * A 2 1,
        A 2 2]]

/-- Modelled from the spec: the pure right-multiplication by `R_z(α)`, each
row's new entries computed from the *original* entries
`(cos α·A[i][0] + sin α·A[i][1], − sin α·A[i][0] + cos α·A[i][1])`. -/
noncomputable def fold_alpha_spec (A : Matrix (Fin 3) (Fin 3) ℝ) (alpha : ℝ) :
    Matrix (Fin 3) (Fin 3) ℝ :=
  Matrix.of
    ![![Real.cos alpha * A 0 0 + Real.sin alpha * A 0 1,
        - Real.sin alpha * A 0 0 + Real.cos alpha * A 0 1, A 0 2],
      ![Real.cos alpha * A 1 0 + Real.sin alpha * A 1 1,
        - Real.sin alpha * A 1 0 + Real.cos alpha * A 1 1, A 1 2],
      ![Real.cos alpha * A 2 0 + Real.sin alpha * A 2 1,
        - Real.sin alpha * A 2 0 + Real.cos alpha * A 2 1, A 2 2]]

/-- The shift rotation of lines 547-548: `Δb` is computed from the *already
updated* `Δa` (sequential overwrite, as in the source). -/
noncomputable def fold_shift (da db alpha : ℝ) : ℝ × ℝ :=
  let da2 := Real.cos alpha * da + Real.sin alpha * db
  (da2, - Real.sin alpha * da2 + Real.cos alpha * db)

/-- Modelled from the spec: the pure 2-D rotation of the shift `(Δa, Δb)`
by `α`. -/
noncomputable def fold_shift_spec (da db alpha : ℝ) : ℝ × ℝ :=
  (Real.cos alpha * da + Real.sin alpha * db,
   - Real.sin alpha * da + Real.cos alpha * db)

/-- The `center_coords` 3-vector computed by the orchestrator (lines
487-525): normalise the points, solve the angles, pick the reference point
(old image center, or the control-points center when the forward-rotated
origin is too far out), and forward-rotate it.  `jx`/`jy` are the
uninitialised locals `center_of_control_points_x/y` (never written by
`calculate_angles`). -/
noncomputable def enable_center_coords (f_normalized NormScale CenterX CenterY : ℝ)
    (x y : List ℝ) (d jx jy : ℝ) : V3 :=
  let xn := normalize_points x NormScale CenterX
  let yn := normalize_points y NormScale CenterY
  let ca := calculate_angles xn yn f_normalized jx jy
  let z := (rotate_rho_delta_rho_h ca.rho ca.delta ca.rho_h 0 0 f_normalized).z
  let A := generate_rotation_matrix ca.rho ca.delta ca.rho_h (clampd d)
  if z ≤ 0 ∨ f_normalized / z > 10 then
    ⟨A 0 0 * ca.ccx + A 0 1 * ca.ccy + A 0 2 * f_normalized,
     A 1 0 * ca.ccx + A 1 1 * ca.ccy + A 1 2 * f_normalized,
     A 2 0 * ca.ccx + A 2 1 * ca.ccy + A 2 2 * f_normalized⟩
  else
    ⟨A 0 2 * f_normalized, A 1 2 * f_normalized, A 2 2 * f_normalized⟩

/-- The 12-float parameter block packed at lines 528-555 (matrix columns 0
and 1 pre-multiplied by `mapping_scale`; slots 9-11 are `f_normalized`,
`Δa/mapping_scale`, `Δb/mapping_scale`). -/
noncomputable def enable_params (f_normalized NormScale CenterX CenterY : ℝ)
    (x y : List ℝ) (d jx jy : ℝ) : List ℝ :=
  let xn := normalize_points x NormScale CenterX
  let yn := normalize_points y NormScale CenterY
  let ca := calculate_angles xn yn f_normalized jx jy
  let cc := enable_center_coords f_normalized NormScale CenterX CenterY x y d jx jy
  let mapping_scale := f_normalized / cc.z
  let B := fold_alpha
    (generate_rotation_matrix (- ca.rho_h) (- ca.delta) (- ca.rho) (clampd d)) ca.alpha
  let p := central_projection cc f_normalized
  let s := fold_shift p.1 p.2 ca.alpha
  [B 0 0 * mapping_scale, B 0 1 * mapping_scale, B 0 2,
   B 1 0 * mapping_scale, B 1 1 * mapping_scale, B 1 2,
   B 2 0 * mapping_scale, B 2 1 * mapping_scale, B 2 2,
   f_normalized, s.1 / mapping_scale, s.2 / mapping_scale]

/-- `lfModifier::enable_perspective_correction` from the source.  `none`
models `return false` (no callback registered); `some params` models a
successful `AddCoordCallback` registration of the 12-float block. -/
noncomputable def enable_perspective_correction (f_normalized NormScale CenterX CenterY : ℝ)
    (x y : List ℝ) (d jx jy : ℝ) : Option (List ℝ) :=
  if f_normalized ≤ 0 ∨ x.length < 4 ∨ 8 < x.length then none
  else if (enable_center_coords f_normalized NormScale CenterX CenterY x y d jx jy).z ≤ 0 then
    none
  else some (enable_params f_normalized NormScale CenterX CenterY x y d jx jy)

/-- `lfModifier::ModifyCoord_Perspective_Correction` from the source, as the
action of its loop body on one coordinate pair: it reads a single float
`k1 = data[0]` and applies the radial polynomial
`Rd = Ru·(1 − k1 + k1·Ru²)`. -/
noncomputable def ModifyCoord_Perspective_Correction (data : List ℝ) (x y : ℝ) : ℝ × ℝ :=
  let k1 := idx data 0
  let one_minus_k1 := 1 - k1
  let poly2 := one_minus_k1 + k1 * (x ^ 2 + y ^ 2)
  (x * poly2, y * poly2)

/-- Modelled from the spec (§4.5, §6): the per-pixel reverse perspective
mapping the parameter block is built for —
`(x', y', z') = A_bwd · (x + Δa/s, y + Δb/s, f)` with the packed scaled
columns, output `(x'·f/z', y'·f/z')`. -/
noncomputable def perspective_callback_spec (data : List ℝ) (x y : ℝ) : ℝ × ℝ :=
  let f := idx data 9
  let xs := x + idx data 10
  let ys := y + idx data 11
  let z2 := idx data 6 * xs + idx data 7 * ys + idx data 8 * f
  ((idx data 0 * xs + idx data 1 * ys + idx data 2 * f) * f / z2,
   (idx data 3 * xs + idx data 4 * ys + idx data 5 * f) * f / z2)

/-! ## Concrete inputs used by the end-to-end evaluations -/

/-- Scenario A of the spec (§8): an exactly axis-aligned rectangle. -/
noncomputable def scenA_x : List ℝ := [-(1/2), -(1/2), 1/2, 1/2]

noncomputable def scenA_y : List ℝ := [-(1/2), 1/2, -(1/2), 1/2]

/-- An N = 8 input: two "vertical" lines meeting at `(0, -2)` (points 0-3)
and two "horizontal" lines meeting at `(3, 2)` (points 4-7), so the
focal-length refinement radicand is `-3·0 - 2·(-2) = 4` while the supplied
`f_normalized` is 1. -/
noncomputable def run8_x : List ℝ := [-1, -(1/2), 1, 1/2, 1, 2, 1, 5]

noncomputable def run8_y : List ℝ := [0, -1, 0, -1, 0, 1, 1, 3]

/-- The parameter block the orchestrator emits on the `run8` input. -/
noncomputable def run8_params : List ℝ :=
  [Real.sqrt 2, 0, 0,
   0, 1, Real.sqrt 2 / 2,
   0, -1, Real.sqrt 2 / 2,
   1, 0, -(Real.sqrt 2 / 2)]

/-! ## Theorems -/

/-- The dead-branch characterisation of `determine_rho_h` (shared helper):
both endpoints are read from index 0, so the comparison `y_0 = y_1` always
succeeds. -/
lemma determine_rho_h_eq (rho delta x0 y0 x1 y1 f cx cy : ℝ) :
    determine_rho_h rho delta x0 y0 x1 y1 f cx cy =
      if (rotate_rho_delta rho delta x0 y0 f).y = 0 then none else some 0 := by
  unfold determine_rho_h
  exact if_pos rfl

/-- C6: `determine_rho_h` computes `p0` and `p1` from identical arguments, so
`y_0 = y_1` always holds, the else branch is dead, and on every input the
function returns the NaN sentinel (`none`) when `y_0 = 0` and `0` otherwise —
never the value `π/2 − atan (x_h / z_h)`. -/
theorem C6_determine_rho_h_dead_else (rho delta x0 y0 x1 y1 f cx cy : ℝ) :
    determine_rho_h rho delta x0 y0 x1 y1 f cx cy =
      if (rotate_rho_delta rho delta x0 y0 f).y = 0 then none else some 0 :=
  determine_rho_h_eq rho delta x0 y0 x1 y1 f cx cy

/-- C1 (code_bug): the registered per-pixel callback does not compute the
packed-matrix perspective mapping; it applies the radial polynomial
`Rd = Ru·(1 − k1 + k1·Ru²)` with `k1 = data[0]`.  On the block
`[2,0,0, 0,2,0, 0,0,1, 1,0,0]` at `(2, 0)` the code yields `(14, 0)` while
the spec's matrix mapping yields `(4, 0)`. -/
theorem C1_callback_divergence :
    ModifyCoord_Perspective_Correction [2, 0, 0, 0, 2, 0, 0, 0, 1, 1, 0, 0] 2 0 = (14, 0) ∧
    perspective_callback_spec [2, 0, 0, 0, 2, 0, 0, 0, 1, 1, 0, 0] 2 0 = (4, 0) ∧
    ((14 : ℝ), (0 : ℝ)) ≠ ((4 : ℝ), (0 : ℝ)) := by
  refine ⟨?_, ?_, by norm_num⟩ <;>
    norm_num [ModifyCoord_Perspective_Correction, perspective_callback_spec, idx,
      List.getD, Prod.ext_iff]

/-- C4: `enable_perspective_correction` fails (returns `none`, registering no
callback) exactly when `f_normalized ≤ 0`, the number of control points is
outside `[4, 8]`, or the rotated reference center has z-coordinate `≤ 0`. -/
theorem C4_failure_iff (f_normalized NormScale CenterX CenterY : ℝ) (x y : List ℝ)
    (d jx jy : ℝ) :
    enable_perspective_correction f_normalized NormScale CenterX CenterY x y d jx jy = none ↔
      (f_normalized ≤ 0 ∨ x.length < 4 ∨ 8 < x.length ∨
        (enable_center_coords f_normalized NormScale CenterX CenterY x y d jx jy).z ≤ 0) := by
  unfold enable_perspective_correction
  split_ifs with h1 h2 <;> simp_all <;> tauto

/-- C5 (code_bug): the α-folding overwrites the matrix cells sequentially, so
column 1 is computed from the already-updated column 0, and likewise `Δb`
from the already-updated `Δa`; it is not the pure right-product by `R_z(α)`.
At `A = I`, `α = π/2`, `(Δa, Δb) = (1, 0)` the code yields entry
`(0,1) = 0` and shift `(0, 0)`, while the pure product yields `-1` and
`(0, -1)`. -/
theorem C5_alpha_fold_divergence :
    fold_alpha 1 (Real.pi / 2) 0 1 = 0 ∧
    fold_alpha_spec 1 (Real.pi / 2) 0 1 = -1 ∧
    fold_shift 1 0 (Real.pi / 2) = (0, 0) ∧
    fold_shift_spec 1 0 (Real.pi / 2) = (0, -1) ∧
    ((0 : ℝ) ≠ -1) := by
  refine ⟨?_, ?_, ?_, ?_, by norm_num⟩ <;>
    norm_num [fold_alpha, fold_alpha_spec, fold_shift, fold_shift_spec,
      Matrix.one_apply, Prod.ext_iff]

/-- C7 (code_bug): the conic tilt is not `½·atan(2b/(a−c))`: the source's
`1/2` is an integer division equal to 0, so the initial tilt is always 0.
At `(a, b, c) = (1, 1, 2)` with axes `(2, 1)` the code computes φ = 0 while
the spec's formula gives `−atan 2 / 2 ≠ 0`. -/
theorem C7_phi_integer_division :
    ellipse_phi 1 1 2 2 1 = 0 ∧
    ellipse_phi_spec 1 1 2 2 1 = - (Real.arctan 2 / 2) ∧
    - (Real.arctan 2 / 2) ≠ 0 := by
  have cfmod_of_mem : ∀ x y : ℝ, 0 ≤ x → 0 < y → x < y → cfmod x y = x := by
    intro x y h0 hy hxy
    unfold cfmod ctrunc
    have ht : 0 ≤ x / y := div_nonneg h0 hy.le
    rw [if_pos ht]
    have hfl : ⌊x / y⌋ = 0 := by
      rw [Int.floor_eq_zero_iff, Set.mem_Ico]
      exact ⟨ht, by rwa [div_lt_one hy]⟩
    rw [hfl]
    norm_num
  have hpi := Real.pi_pos
  have hat2 : 0 < Real.arctan 2 := by
    have := Real.arctan_strictMono (show (0 : ℝ) < 2 by norm_num)
    rwa [Real.arctan_zero] at this
  have hat2' : Real.arctan 2 < Real.pi / 2 := Real.arctan_lt_pi_div_two 2
  refine ⟨?_, ?_, by linarith⟩
  · have e1 : ellipse_phi 1 1 2 2 1 = cfmod (Real.pi / 2) Real.pi - Real.pi / 2 := by
      simp only [ellipse_phi]
      norm_num
    rw [e1, cfmod_of_mem _ _ (by positivity) hpi (by linarith)]
    ring
  · have e2 : ellipse_phi_spec 1 1 2 2 1 =
        cfmod (1 / 2 * Real.arctan (-2) + Real.pi / 2) Real.pi - Real.pi / 2 := by
      simp only [ellipse_phi_spec]
      norm_num
    rw [e2, Real.arctan_neg]
    rw [cfmod_of_mem _ _ (by linarith) hpi (by linarith)]
    ring

/-- Pure-pitch evaluation of the builder: for `|t| ≤ 0.9π` the source
produces exactly the rotation `Rₓ(t)`. -/
lemma grm_pitch (t : ℝ) (ht : |t| ≤ 0.9 * Real.pi) :
    generate_rotation_matrix 0 t 0 0 =
      Matrix.of ![![1, 0, 0],
                  ![0, Real.cos t, - Real.sin t],
                  ![0, Real.sin t, Real.cos t]] := by
  have hpi := Real.pi_pos
  have habs : |t| / 2 = |t / 2| := by
    rw [abs_div, abs_two]
  have hq0 : grm_quat0 0 t 0 = (Real.cos (t / 2), Real.sin (t / 2), 0, 0) := by
    simp [grm_quat0]
  have harc : Real.arccos (Real.cos (t / 2)) = |t| / 2 := by
    rw [habs, ← Real.cos_abs (t / 2),
      Real.arccos_cos (abs_nonneg _) (by rw [← habs]; nlinarith [abs_nonneg t])]
  have htheta : grm_theta 0 t 0 = |t| := by
    simp only [grm_theta, hq0]
    rw [harc, show 2 * (|t| / 2) = |t| by ring,
      if_neg (not_lt.mpr (by nlinarith [abs_nonneg t]))]
  have hst : grm_s_theta 0 t 0 = Real.sin (|t| / 2) := by
    simp only [grm_s_theta, htheta]
  have hstr : grm_strength 0 |t| = |t| := by
    simp only [grm_strength]
    norm_num
    rw [if_neg (not_lt.mpr (by linarith)), if_neg (not_lt.mpr (by nlinarith [abs_nonneg t]))]
  have hcomp : Real.sin (t / 2) / Real.sin (|t| / 2) * Real.sin (|t| / 2) = Real.sin (t / 2) := by
    by_cases hs : Real.sin (|t| / 2) = 0
    · have h0 : |t| / 2 = 0 := by
        rw [← Real.sin_eq_zero_iff_of_lt_of_lt (x := |t| / 2) (by nlinarith [abs_nonneg t])
          (by nlinarith [abs_nonneg t])]
        exact hs
      have ht0 : t = 0 := by
        have : |t| = 0 := by linarith
        exact abs_eq_zero.mp this
      rw [ht0]
      norm_num
    · exact div_mul_cancel₀ _ hs
  have hfq : grm_quat 0 t 0 0 = (Real.cos (t / 2), Real.sin (t / 2), 0, 0) := by
    simp only [grm_quat, hq0, hst, htheta, hstr]
    rw [Prod.mk.injEq, Prod.mk.injEq, Prod.mk.injEq]
    refine ⟨?_, ?_, ?_, ?_⟩
    · rw [habs, Real.cos_abs]
    · exact hcomp
    · simp
    · simp
  have h2 : Real.cos t = 1 - 2 * Real.sin (t / 2) ^ 2 := by
    have h := Real.cos_two_mul (t / 2)
    have hp := Real.sin_sq_add_cos_sq (t / 2)
    rw [show 2 * (t / 2) = t by ring] at h
    linarith
  have h3 : Real.sin t = 2 * Real.sin (t / 2) * Real.cos (t / 2) := by
    have h := Real.sin_two_mul (t / 2)
    rw [show 2 * (t / 2) = t by ring] at h
    linarith
  show quat_to_matrix (grm_quat 0 t 0 0).1 (grm_quat 0 t 0 0).2.1 (grm_quat 0 t 0 0).2.2.1
      (grm_quat 0 t 0 0).2.2.2 = _
  rw [hfq]
  ext i j
  fin_cases i <;> fin_cases j <;>
    simp [quat_to_matrix, Matrix.of_apply, Matrix.cons_val_zero, Matrix.cons_val_one,
      Matrix.head_cons, Matrix.cons_val_two, Matrix.tail_cons] <;>
    linarith [h2, h3]

/-- C10: on every input whose composed quaternion has zero net rotation angle
(`θ = 2·acos w = 0`, e.g. `ρ₁ = δ = ρ₂ = 0`), the builder divides the axis
components by `sin (θ/2) = 0` with no guard: the division-by-zero branch is
reachable (`grm_s_theta = 0`), and the checked builder does not return any
matrix — in particular not the identity rotation. -/
theorem C10_zero_rotation_division (rho_1 delta rho_2 d : ℝ)
    (h : 2 * Real.arccos (grm_quat0 rho_1 delta rho_2).1 = 0) :
    grm_s_theta rho_1 delta rho_2 = 0 ∧
    generate_rotation_matrix_checked rho_1 delta rho_2 d = none ∧
    generate_rotation_matrix_checked rho_1 delta rho_2 d ≠ some 1 := by
  have hth : grm_theta rho_1 delta rho_2 = 0 := by
    simp only [grm_theta]
    rw [h, if_neg (not_lt.mpr Real.pi_pos.le)]
  have hst : grm_s_theta rho_1 delta rho_2 = 0 := by
    simp only [grm_s_theta, hth]
    norm_num
  refine ⟨hst, ?_, ?_⟩ <;> simp [generate_rotation_matrix_checked, hst]

/-- Witness for C10 at `ρ₁ = δ = ρ₂ = 0`, `d = 0`. -/
theorem C10_zero_rotation_division_witness :
    2 * Real.arccos (grm_quat0 0 0 0).1 = 0 ∧
    generate_rotation_matrix_checked 0 0 0 0 = none := by
  have h : 2 * Real.arccos (grm_quat0 0 0 0).1 = 0 := by
    norm_num [grm_quat0, Real.arccos_one]
  exact ⟨h, (C10_zero_rotation_division 0 0 0 0 h).2.1⟩

/-! ## Scenario A end-to-end evaluation -/

lemma scenA_CA (jx jy : ℝ) :
    calculate_angles scenA_x scenA_y 1 jx jy = ⟨0, Real.pi / 2, 0, 0, jx, jy⟩ := by
  have hvan : ca_vanishing scenA_x scenA_y 1 0 0 = ⟨0, 0, 1, 0, 0⟩ := by
    norm_num [ca_vanishing, intersection, intersection_C, idx, List.getD, scenA_x, scenA_y]
  have hrd : ca_rho_delta 0 0 1 0 0 = (0, Real.pi / 2) := by
    norm_num [ca_rho_delta, rotate_rho_delta, Real.arctan_zero, Real.sqrt_one,
      Real.cos_pi_div_two, Real.sin_pi_div_two, Prod.ext_iff]
  have hc1 : (ca_c scenA_x scenA_y 0 0 0 0).1 = 0 := by
    norm_num [ca_c, normalize, idx, List.getD, scenA_x, scenA_y]
  have halpha : ca_alpha_swapped scenA_x scenA_y 0 (Real.pi / 2) 1
      (ca_c scenA_x scenA_y 0 0 0 0) = (0, false) := by
    have hcond : ¬ (|(ca_c scenA_x scenA_y 0 0 0 0).1| >
        |(ca_c scenA_x scenA_y 0 0 0 0).2|) := by
      rw [hc1, abs_zero]
      exact not_lt.mpr (abs_nonneg _)
    simp only [ca_alpha_swapped]
    rw [if_neg (by norm_num [scenA_x]), if_neg hcond]
  have hrh : ca_rho_h scenA_x scenA_y 0 (Real.pi / 2) 1 0 0 false = 0 := by
    simp only [ca_rho_h]
    rw [if_pos (by norm_num [scenA_x] : scenA_x.length = 4)]
    rw [if_neg (by norm_num), determine_rho_h_eq]
    norm_num [rotate_rho_delta, Real.cos_pi_div_two, Real.sin_pi_div_two]
  have hctr : ca_center scenA_x scenA_y = (0, 0) := by
    norm_num [ca_center, scenA_x, scenA_y]
  simp [calculate_angles, hctr, hvan, hrd, halpha, hrh]

lemma scenA_center (jx jy : ℝ) :
    enable_center_coords 1 1 0 0 scenA_x scenA_y 0 jx jy = ⟨jx, -1, jy⟩ := by
  have hnx : normalize_points scenA_x 1 0 = scenA_x := by simp [normalize_points, scenA_x]
  have hny : normalize_points scenA_y 1 0 = scenA_y := by simp [normalize_points, scenA_y]
  have hz : (rotate_rho_delta_rho_h 0 (Real.pi / 2) 0 0 0 1).z = 0 := by
    norm_num [rotate_rho_delta_rho_h, Real.cos_pi_div_two, Real.sin_pi_div_two]
  have hA : generate_rotation_matrix 0 (Real.pi / 2) 0 (clampd 0) =
      Matrix.of ![![1, 0, 0], ![0, 0, -1], ![0, 1, 0]] := by
    have hc : clampd 0 = 0 := by norm_num [clampd]
    rw [hc, grm_pitch (Real.pi / 2)
      (by rw [abs_of_pos (by positivity : (0 : ℝ) < Real.pi / 2)]
          nlinarith [Real.pi_pos])]
    rw [Real.cos_pi_div_two, Real.sin_pi_div_two]
  simp only [enable_center_coords, hnx, hny, scenA_CA jx jy]
  rw [hz, if_pos (Or.inl le_rfl), hA, V3.mk.injEq]
  refine ⟨?_, ?_, ?_⟩ <;>
    norm_num [show (Matrix.of ![![1, 0, 0], ![0, 0, -1], ![0, 1, 0]] :
        Matrix (Fin 3) (Fin 3) ℝ) 0 0 = 1 from rfl,
      show (Matrix.of ![![1, 0, 0], ![0, 0, -1], ![0, 1, 0]] :
        Matrix (Fin 3) (Fin 3) ℝ) 0 1 = 0 from rfl,
      show (Matrix.of ![![1, 0, 0], ![0, 0, -1], ![0, 1, 0]] :
        Matrix (Fin 3) (Fin 3) ℝ) 0 2 = 0 from rfl,
      show (Matrix.of ![![1, 0, 0], ![0, 0, -1], ![0, 1, 0]] :
        Matrix (Fin 3) (Fin 3) ℝ) 1 0 = 0 from rfl,
      show (Matrix.of ![![1, 0, 0], ![0, 0, -1], ![0, 1, 0]] :
        Matrix (Fin 3) (Fin 3) ℝ) 1 1 = 0 from rfl,
      show (Matrix.of ![![1, 0, 0], ![0, 0, -1], ![0, 1, 0]] :
        Matrix (Fin 3) (Fin 3) ℝ) 1 2 = -1 from rfl,
      show (Matrix.of ![![1, 0, 0], ![0, 0, -1], ![0, 1, 0]] :
        Matrix (Fin 3) (Fin 3) ℝ) 2 0 = 0 from rfl,
      show (Matrix.of ![![1, 0, 0], ![0, 0, -1], ![0, 1, 0]] :
        Matrix (Fin 3) (Fin 3) ℝ) 2 1 = 1 from rfl,
      show (Matrix.of ![![1, 0, 0], ![0, 0, -1], ![0, 1, 0]] :
        Matrix (Fin 3) (Fin 3) ℝ) 2 2 = 0 from rfl]

/-- C3 (code_bug): `calculate_angles` never assigns its two final reference
parameters, so the caller's (uninitialised) values `(42, 43)` come back
unchanged instead of the control-point mean `(0, 0)`, and the orchestrator
then forward-rotates exactly that stale value when it selects the
control-points-center reference (the rotated z-coordinate is the junk 43). -/
theorem C3_center_outparams_never_written :
    (calculate_angles scenA_x scenA_y 1 42 43).ccx = 42 ∧
    (calculate_angles scenA_x scenA_y 1 42 43).ccy = 43 ∧
    ca_center scenA_x scenA_y = (0, 0) ∧
    (enable_center_coords 1 1 0 0 scenA_x scenA_y 0 42 43).z = 43 ∧
    ((42 : ℝ) ≠ 0 ∧ (43 : ℝ) ≠ 0) := by
  refine ⟨?_, ?_, ?_, ?_, by norm_num, by norm_num⟩
  · rw [scenA_CA 42 43]
  · rw [scenA_CA 42 43]
  · norm_num [ca_center, scenA_x, scenA_y]
  · rw [scenA_center 42 43]

/-! ## N = 8 end-to-end evaluation (`run8`) -/

lemma sqrt_four : Real.sqrt 4 = 2 := by
  rw [show (4 : ℝ) = 2 ^ 2 by norm_num, Real.sqrt_sq (by norm_num : (0 : ℝ) ≤ 2)]

lemma sqrt_two_pos : (0 : ℝ) < Real.sqrt 2 := Real.sqrt_pos.mpr (by norm_num)

lemma sqrt_two_mul_self : Real.sqrt 2 * Real.sqrt 2 = 2 :=
  Real.mul_self_sqrt (by norm_num)

lemma one_div_half_sqrt_two : (1 : ℝ) / (Real.sqrt 2 / 2) = Real.sqrt 2 := by
  rw [one_div_div, div_eq_iff (ne_of_gt sqrt_two_pos)]
  exact sqrt_two_mul_self.symm

lemma run8_vanishing :
    ca_vanishing run8_x run8_y 1 (9 / 8) (3 / 8) = ⟨0, -2, 2, 9 / 8, 3 / 8⟩ := by
  norm_num [ca_vanishing, intersection, intersection_C, idx, List.getD, run8_x, run8_y,
    sqrt_four]

lemma run8_enable :
    enable_perspective_correction 1 1 0 0 run8_x run8_y 0 0 0 = some run8_params := by
  have hCA : ∀ jx jy : ℝ,
      calculate_angles run8_x run8_y 1 jx jy = ⟨0, Real.pi / 4, 0, 0, jx, jy⟩ := by
    intro jx jy
    have hctr : ca_center run8_x run8_y = (9 / 8, 3 / 8) := by
      norm_num [ca_center, run8_x, run8_y]
    have hrd : ca_rho_delta 0 (-2) 2 (9 / 8) (3 / 8) = (0, Real.pi / 4) := by
      have hrho : Real.arctan (-0 / 2) = 0 := by norm_num [Real.arctan_zero]
      have hdelta : Real.pi / 2 - Real.arctan (-(-2) / Real.sqrt ((0 : ℝ) ^ 2 + 2 ^ 2)) =
          Real.pi / 4 := by
        rw [show ((0 : ℝ) ^ 2 + 2 ^ 2) = 4 by norm_num, sqrt_four,
          show (-(-2 : ℝ) / 2) = 1 by norm_num, Real.arctan_one]
        ring
      have hz : ¬ ((rotate_rho_delta 0 (Real.pi / 4) (9 / 8) (3 / 8) 2).z < 0) := by
        rw [not_lt]
        have h1 : (0 : ℝ) < Real.sin (Real.pi / 4) := by
          rw [Real.sin_pi_div_four]; positivity
        have h2 : (0 : ℝ) < Real.cos (Real.pi / 4) := by
          rw [Real.cos_pi_div_four]; positivity
        simp only [rotate_rho_delta, Real.sin_zero, Real.cos_zero]
        nlinarith
      simp only [ca_rho_delta, hrho, hdelta]
      rw [if_neg hz]
    have hc1 : (ca_c run8_x run8_y 0 (-2) (9 / 8) (3 / 8)).1 = 0 := by
      norm_num [ca_c, normalize, idx, List.getD, run8_x, run8_y]
      ring
    have halpha : ca_alpha_swapped run8_x run8_y 0 (Real.pi / 4) 2
        (ca_c run8_x run8_y 0 (-2) (9 / 8) (3 / 8)) = (0, false) := by
      have hcond : ¬ (|(ca_c run8_x run8_y 0 (-2) (9 / 8) (3 / 8)).1| >
          |(ca_c run8_x run8_y 0 (-2) (9 / 8) (3 / 8)).2|) := by
        rw [hc1, abs_zero]
        exact not_lt.mpr (abs_nonneg _)
      simp only [ca_alpha_swapped]
      rw [if_neg (by norm_num [run8_x]), if_neg hcond]
    have hrh : ca_rho_h run8_x run8_y 0 (Real.pi / 4) 2 (9 / 8) (3 / 8) false = 0 := by
      have h4x : idx run8_x 4 = 1 := rfl
      have h4y : idx run8_y 4 = 0 := rfl
      have hy : ¬ ((rotate_rho_delta 0 (Real.pi / 4) 1 0 2).y = 0) := by
        have h1 : (0 : ℝ) < Real.sin (Real.pi / 4) := by
          rw [Real.sin_pi_div_four]; positivity
        simp only [rotate_rho_delta, Real.sin_zero, Real.cos_zero]
        intro h
        nlinarith
      simp only [ca_rho_h, h4x, h4y]
      rw [if_neg (by norm_num [run8_x]), if_neg (by norm_num [run8_x]),
        determine_rho_h_eq, if_neg hy]
    simp [calculate_angles, hctr, run8_vanishing, hrd, halpha, hrh]
  have hnx : normalize_points run8_x 1 0 = run8_x := by simp [normalize_points, run8_x]
  have hny : normalize_points run8_y 1 0 = run8_y := by simp [normalize_points, run8_y]
  have h12 : (1 : ℝ) / Real.sqrt 2 = Real.sqrt 2 / 2 := by
    rw [div_eq_div_iff sqrt_two_pos.ne' (by norm_num : (2 : ℝ) ≠ 0)]
    linarith [sqrt_two_mul_self]
  have hcenter : enable_center_coords 1 1 0 0 run8_x run8_y 0 0 0 =
      ⟨0, -(Real.sqrt 2 / 2), Real.sqrt 2 / 2⟩ := by
    have hz : (rotate_rho_delta_rho_h 0 (Real.pi / 4) 0 0 0 1).z = Real.sqrt 2 / 2 := by
      norm_num [rotate_rho_delta_rho_h, Real.sin_zero, Real.cos_zero, Real.cos_pi_div_four]
    have hcond : ¬ (Real.sqrt 2 / 2 ≤ 0 ∨ (1 : ℝ) / (Real.sqrt 2 / 2) > 10) := by
      push_neg
      refine ⟨by positivity, ?_⟩
      rw [one_div_half_sqrt_two]
      nlinarith [sqrt_two_mul_self, sqrt_two_pos]
    have hA : generate_rotation_matrix 0 (Real.pi / 4) 0 (clampd 0) =
        Matrix.of ![![1, 0, 0],
                    ![0, Real.sqrt 2 / 2, -(Real.sqrt 2 / 2)],
                    ![0, Real.sqrt 2 / 2, Real.sqrt 2 / 2]] := by
      rw [show clampd 0 = 0 by norm_num [clampd],
        grm_pitch (Real.pi / 4)
          (by rw [abs_of_pos (by positivity : (0 : ℝ) < Real.pi / 4)]
              nlinarith [Real.pi_pos])]
      rw [Real.cos_pi_div_four, Real.sin_pi_div_four]
    simp only [enable_center_coords, hnx, hny, hCA 0 0]
    rw [hz, if_neg hcond, hA, V3.mk.injEq]
    refine ⟨?_, ?_, ?_⟩ <;>
      norm_num [show (Matrix.of ![![1, 0, 0],
          ![0, Real.sqrt 2 / 2, -(Real.sqrt 2 / 2)],
          ![0, Real.sqrt 2 / 2, Real.sqrt 2 / 2]] : Matrix (Fin 3) (Fin 3) ℝ) 0 2 = 0 from rfl,
        show (Matrix.of ![![1, 0, 0],
          ![0, Real.sqrt 2 / 2, -(Real.sqrt 2 / 2)],
          ![0, Real.sqrt 2 / 2, Real.sqrt 2 / 2]] : Matrix (Fin 3) (Fin 3) ℝ) 1 2 =
            -(Real.sqrt 2 / 2) from rfl,
        show (Matrix.of ![![1, 0, 0],
          ![0, Real.sqrt 2 / 2, -(Real.sqrt 2 / 2)],
          ![0, Real.sqrt 2 / 2, Real.sqrt 2 / 2]] : Matrix (Fin 3) (Fin 3) ℝ) 2 2 =
            Real.sqrt 2 / 2 from rfl]
  have hparams : enable_params 1 1 0 0 run8_x run8_y 0 0 0 = run8_params := by
    have hfa : ∀ M : Matrix (Fin 3) (Fin 3) ℝ, fold_alpha M 0 = M := by
      intro M
      ext i j
      fin_cases i <;> fin_cases j <;>
        simp [fold_alpha, Real.cos_zero, Real.sin_zero, Matrix.of_apply, Matrix.cons_val_zero,
          Matrix.cons_val_one, Matrix.head_cons, Matrix.cons_val_two, Matrix.tail_cons]
    have hfs : ∀ da db : ℝ, fold_shift da db 0 = (da, db) := by
      intro da db
      norm_num [fold_shift]
    have hB : generate_rotation_matrix (-0) (-(Real.pi / 4)) (-0) (clampd 0) =
        Matrix.of ![![1, 0, 0],
                    ![0, Real.sqrt 2 / 2, Real.sqrt 2 / 2],
                    ![0, -(Real.sqrt 2 / 2), Real.sqrt 2 / 2]] := by
      rw [neg_zero, show clampd 0 = 0 by norm_num [clampd],
        grm_pitch (-(Real.pi / 4))
          (by rw [abs_neg, abs_of_pos (by positivity : (0 : ℝ) < Real.pi / 4)]
              nlinarith [Real.pi_pos])]
      rw [Real.cos_neg, Real.sin_neg, Real.cos_pi_div_four, Real.sin_pi_div_four, neg_neg]
    have hp : central_projection ⟨0, -(Real.sqrt 2 / 2), Real.sqrt 2 / 2⟩ 1 = (0, -1) := by
      simp only [central_projection]
      rw [Prod.mk.injEq, one_div_half_sqrt_two]
      constructor
      · norm_num
      · linear_combination (-(1 : ℝ) / 2) * sqrt_two_mul_self
    simp only [enable_params, hnx, hny, hCA 0 0, hcenter, hB, hfa,
      hp, hfs, one_div_half_sqrt_two]
    norm_num [run8_params,
      show (Matrix.of ![![1, 0, 0],
        ![0, Real.sqrt 2 / 2, Real.sqrt 2 / 2],
        ![0, -(Real.sqrt 2 / 2), Real.sqrt 2 / 2]] : Matrix (Fin 3) (Fin 3) ℝ) 0 0 = 1 from rfl,
      show (Matrix.of ![![1, 0, 0],
        ![0, Real.sqrt 2 / 2, Real.sqrt 2 / 2],
        ![0, -(Real.sqrt 2 / 2), Real.sqrt 2 / 2]] : Matrix (Fin 3) (Fin 3) ℝ) 0 1 = 0 from rfl,
      show (Matrix.of ![![1, 0, 0],
        ![0, Real.sqrt 2 / 2, Real.sqrt 2 / 2],
        ![0, -(Real.sqrt 2 / 2), Real.sqrt 2 / 2]] : Matrix (Fin 3) (Fin 3) ℝ) 0 2 = 0 from rfl,
      show (Matrix.of ![![1, 0, 0],
        ![0, Real.sqrt 2 / 2, Real.sqrt 2 / 2],
        ![0, -(Real.sqrt 2 / 2), Real.sqrt 2 / 2]] : Matrix (Fin 3) (Fin 3) ℝ) 1 0 = 0 from rfl,
      show (Matrix.of ![![1, 0, 0],
        ![0, Real.sqrt 2 / 2, Real.sqrt 2 / 2],
        ![0, -(Real.sqrt 2 / 2), Real.sqrt 2 / 2]] : Matrix (Fin 3) (Fin 3) ℝ) 1 1 =
          Real.sqrt 2 / 2 from rfl,
      show (Matrix.of ![![1, 0, 0],
        ![0, Real.sqrt 2 / 2, Real.sqrt 2 / 2],
        ![0, -(Real.sqrt 2 / 2), Real.sqrt 2 / 2]] : Matrix (Fin 3) (Fin 3) ℝ) 1 2 =
          Real.sqrt 2 / 2 from rfl,
      show (Matrix.of ![![1, 0, 0],
        ![0, Real.sqrt 2 / 2, Real.sqrt 2 / 2],
        ![0, -(Real.sqrt 2 / 2), Real.sqrt 2 / 2]] : Matrix (Fin 3) (Fin 3) ℝ) 2 0 = 0 from rfl,
      show (Matrix.of ![![1, 0, 0],
        ![0, Real.sqrt 2 / 2, Real.sqrt 2 / 2],
        ![0, -(Real.sqrt 2 / 2), Real.sqrt 2 / 2]] : Matrix (Fin 3) (Fin 3) ℝ) 2 1 =
          -(Real.sqrt 2 / 2) from rfl,
      show (Matrix.of ![![1, 0, 0],
        ![0, Real.sqrt 2 / 2, Real.sqrt 2 / 2],
        ![0, -(Real.sqrt 2 / 2), Real.sqrt 2 / 2]] : Matrix (Fin 3) (Fin 3) ℝ) 2 2 =
          Real.sqrt 2 / 2 from rfl,
      sqrt_two_mul_self, show Real.sqrt 2 ^ 2 = 2 from Real.sq_sqrt (by norm_num),
      h12, neg_div]
    linear_combination ((1 : ℝ) / 2) * sqrt_two_mul_self
  simp only [enable_perspective_correction]
  rw [if_neg (by norm_num [run8_x]),
    if_neg (by rw [hcenter]; exact not_le.mpr (by positivity)),
    hparams]

/-- C2 (amended): slot 9 of every parameter block the orchestrator emits is
the modifier's originally supplied `f_normalized`.  The N = 8 refinement
`f_normalized = √(−x_h·x_v − y_h·y_v)` happens on the by-value parameter
inside `calculate_angles` and only influences the angles; it never reaches
the emitted block. -/
theorem C2_param_block_slot9 (f_normalized NormScale CenterX CenterY : ℝ)
    (x y : List ℝ) (d jx jy : ℝ) (ps : List ℝ)
    (h : enable_perspective_correction f_normalized NormScale CenterX CenterY x y d jx jy =
      some ps) :
    ps.getD 9 0 = f_normalized := by
  unfold enable_perspective_correction at h
  split_ifs at h
  rw [Option.some_inj] at h
  subst h
  rfl

/-- Witness for C2 on the `run8` input. -/
theorem C2_param_block_slot9_witness :
    enable_perspective_correction 1 1 0 0 run8_x run8_y 0 0 0 = some run8_params ∧
    run8_params.getD 9 0 = 1 :=
  ⟨run8_enable, C2_param_block_slot9 1 1 0 0 run8_x run8_y 0 0 0 run8_params run8_enable⟩

/-- C2 (counterexample): on the `run8` input, N = 8 and the second
intersection yields the radicand 4 ≥ 0, so `calculate_angles` refines its
local focal length to `√4 = 2`; yet slot 9 of the emitted parameter block is
the originally supplied value 1, not the refined value 2. -/
theorem C2_param_block_slot9_counterexample :
    (ca_vanishing run8_x run8_y 1 (9 / 8) (3 / 8)).f = 2 ∧
    enable_perspective_correction 1 1 0 0 run8_x run8_y 0 0 0 = some run8_params ∧
    run8_params.getD 9 0 = 1 ∧
    (1 : ℝ) ≠ 2 := by
  refine ⟨?_, run8_enable, rfl, by norm_num⟩
  rw [run8_vanishing]

end ModPC
